import Mathlib

/-!
Verification of the text-to-image compositing engine of
python-agentic-content-creator (src/image_compositor/compositor.py).

The development shallowly embeds the layout pipeline of the compositor:

* a model of CPython textwrap.wrap with its default TextWrapper settings
  (expand_tabs, replace_whitespace, drop_whitespace, break_long_words,
  break_on_hyphens all at their defaults). Whitespace is the literal
  six-character class of the wordsep pattern, exactly as in CPython; the
  word classes are read over ASCII, where Unicode \w also admits
  non-ASCII alphanumerics — the line-length bound is therefore also
  proven for arbitrary chunk lists, independent of the chunker;
* the font-resolution helper _find_font_file;
* the two render entry points create_branded_headline_slide and
  add_text_to_image, with the external PIL facilities (file existence,
  image decoding, font loading, text metrics, file saving) supplied by an
  explicit environment record, and the surrounding try/except modelled by
  an Except layer that is caught at the boundary.

Machine floats in the source appear only as the fixed constants
int(80*0.2)=16, int(45*0.2)=9, int(width*0.1), int(img_width*0.08) and in
the division usable_width / avg_char_width; the model uses exact rationals,
which truncate to the same integers for every width because the exact
values 2*w/25 and w/10 are never within a float rounding error of crossing
an integer boundary.
-/

set_option maxRecDepth 10000

namespace Compositor

/-! ## CPython textwrap model -/

/-- Whitespace in the sense of the default textwrap munging: the six
characters of string.whitespace that _munge_whitespace translates to a
space and that the wordsep pattern treats as breaking whitespace. -/
def isSpaceChar (c : Char) : Bool :=
  c = ' ' || c = '\t' || c = '\n' || c = '\x0b' || c = '\x0c' || c = '\r'

/-- Word character, the model of the regex class backslash-w. The model
covers the ASCII range: in CPython the class also admits non-ASCII
Unicode alphanumerics, so chunk boundaries around hyphens differ for
non-ASCII letters; the wrapped-line-length bound of the development is
additionally proven for arbitrary chunk lists, independent of this
class (wrapChunksLoop_len). -/
def isWordChar (c : Char) : Bool :=
  c.isAlphanum || c = '_'

/-- Non-digit word character, the model of the regex class [^\d\W] used
by the hyphenated-word rule, with the same ASCII reading as
isWordChar. -/
def isWordNonDigit (c : Char) : Bool :=
  c.isAlpha || c = '_'

/-- Characters allowed right before an em-dash by the wordsep pattern:
word characters plus the six punctuation marks the pattern lists
(exclamation, double quote, apostrophe, ampersand, period, comma,
question mark). -/
def isEmDashBefore (c : Char) : Bool :=
  isWordChar c || c = '!' || c = '"' || c = '\'' || c = '&' ||
    c = '.' || c = ',' || c = '?'

/-- Length of the run of hyphen-minus characters at the head of a list. -/
def hyphenRun : List Char → Nat
  | '-' :: cs => hyphenRun cs + 1
  | _ => 0

/-- One step of str.expandtabs(8): the column advances to the next
multiple of 8 at a tab, resets at a newline or carriage return, and
advances by one otherwise. -/
def expandtabsAux : Nat → List Char → List Char
  | _, [] => []
  | col, c :: cs =>
    if c = '\t' then
      List.replicate (8 - col % 8) ' ' ++ expandtabsAux (col + (8 - col % 8)) cs
    else if c = '\n' ∨ c = '\r' then
      c :: expandtabsAux 0 cs
    else
      c :: expandtabsAux (col + 1) cs

/-- Model of TextWrapper._munge_whitespace: str.expandtabs(8) followed by
translation of each whitespace character to a plain space. -/
def mungeWhitespace (cs : List Char) : List Char :=
  (expandtabsAux 0 cs).map (fun c => if isSpaceChar c then ' ' else c)

/-- Lookbehind of the hyphenated-word rule at a position whose preceding
characters, nearest first, are ctx: the text ends with
letter letter hyphen or with letter hyphen letter hyphen. -/
def hyphenLookbehind : List Char → Bool
  | '-' :: b :: '-' :: a :: _ => isWordNonDigit b && isWordNonDigit a
  | '-' :: b :: a :: _ => isWordNonDigit b && isWordNonDigit a
  | _ => false

/-- Lookahead of the hyphenated-word rule: letter, optional hyphen,
letter. -/
def hyphenLookahead : List Char → Bool
  | a :: '-' :: b :: _ => isWordNonDigit a && isWordNonDigit b
  | a :: b :: _ => isWordNonDigit a && isWordNonDigit b
  | _ => false

/-- Em-dash lookahead of the wordsep pattern: a run of at least two
hyphens followed by a word character. -/
def emDashAhead (cs : List Char) : Bool :=
  decide (2 ≤ hyphenRun cs) &&
    (match cs.drop (hyphenRun cs) with
     | d :: _ => isWordChar d
     | [] => false)

/-- End test for the lazy word alternative of the wordsep pattern. own is
the list of characters consumed by this match (nearest first), ctx the
full preceding text (nearest first, reaching into earlier chunks for the
lookbehinds) and ahead the remaining text. The word ends here when the
hyphenated-word rule fires (the consumed hyphen needs at least one
non-greedy character before it inside this match), at end of text or
before whitespace, or before an em-dash. -/
def wordBoundaryHere (own ctx ahead : List Char) : Bool :=
  (match own with
   | '-' :: _ :: _ => hyphenLookbehind ctx && hyphenLookahead ahead
   | _ => false) ||
  (match ahead with
   | [] => true
   | c :: _ => isSpaceChar c) ||
  (match own with
   | c :: _ => isEmDashBefore c && emDashAhead ahead
   | _ => false)

/-- Scan of the lazy word alternative: consume characters one at a time,
stopping at the first position where wordBoundaryHere holds. Returns the
consumed characters nearest-first and the remaining text. -/
def scanWord (own ctx : List Char) : List Char → List Char × List Char
  | [] => (own, [])
  | c :: cs =>
    if wordBoundaryHere (c :: own) (c :: ctx) cs then (c :: own, cs)
    else scanWord (c :: own) (c :: ctx) cs

/-- Longest whitespace run at the head, as consumed by the whitespace
alternative of the wordsep pattern. -/
def scanSpaces (acc : List Char) : List Char → List Char × List Char
  | [] => (acc, [])
  | c :: cs => if isSpaceChar c then scanSpaces (c :: acc) cs else (acc, c :: cs)

/-- One wordsep match starting at the current position, given the
already-processed text (nearest first) for the lookbehinds. Alternatives
in pattern order: whitespace run, em-dash run between words (its
lookbehind is the word_punct class, word characters plus the six
punctuation marks, not plain backslash-w), lazy word. Returns the chunk
(in order) and the rest. -/
def nextChunk (prev : List Char) (cs : List Char) : List Char × List Char :=
  match cs with
  | [] => ([], [])
  | c :: rest =>
    if isSpaceChar c then
      let (accRev, rest') := scanSpaces [c] rest
      (accRev.reverse, rest')
    else if (match prev with
             | p :: _ => isEmDashBefore p
             | [] => false) && emDashAhead cs then
      let n := hyphenRun cs
      (cs.take n, cs.drop n)
    else
      let (ownRev, rest') := scanWord [] prev cs
      (ownRev.reverse, rest')

/-- Fuelled splitting loop: repeatedly take the next wordsep match.
The fuel is an upper bound on the number of chunks; each match consumes
at least one character. -/
def splitLoop : Nat → List Char → List Char → List (List Char)
  | 0, _, _ => []
  | _ + 1, _, [] => []
  | fuel + 1, prev, cs =>
    let (chunk, rest) := nextChunk prev cs
    match chunk with
    | [] => []
    | _ => chunk :: splitLoop fuel (chunk.reverse ++ prev) rest

/-- Model of TextWrapper._split with break_on_hyphens: the wordsep
matches tile the munged text, so the split is the list of matches. -/
def splitChunks (cs : List Char) : List (List Char) :=
  splitLoop (cs.length + 1) [] cs

/-- Tail of Python str.rfind for a hyphen: walk the characters keeping
the index of the last hyphen seen. -/
def rfindHyphenAux : List Char → Nat → Option Nat → Option Nat
  | [], _, acc => acc
  | c :: cs, i, acc => rfindHyphenAux cs (i + 1) (if c = '-' then some i else acc)

/-- Python str.rfind of a hyphen over the slice [0, bound): the largest
index below the bound holding a hyphen. -/
def rfindHyphen (c : List Char) (bound : Nat) : Option Nat :=
  rfindHyphenAux (c.take bound) 0 none

/-- Model of TextWrapper._handle_long_word with break_long_words and
break_on_hyphens at their default true: split the chunk at the last
hyphen inside the available space when the hyphen is preceded by a
non-hyphen, otherwise at the available space itself. Returns the piece
appended to the current line and the remainder left in the chunk list. -/
def handleLongWord (width curLen : Nat) (chunk : List Char) : List Char × List Char :=
  let spaceLeft := if width < 1 then 1 else width - curLen
  let endIdx :=
    if spaceLeft < chunk.length then
      match rfindHyphen chunk spaceLeft with
      | some i =>
        if 0 < i ∧ (chunk.take i).any (fun c => c ≠ '-') then i + 1 else spaceLeft
      | none => spaceLeft
    else spaceLeft
  (chunk.take endIdx, chunk.drop endIdx)

/-- Greedy fill of one line from the chunk list: move chunks to the
current line (kept nearest-first) while they fit within the width.
Returns the line so far, the unconsumed chunks and the line length. -/
def fillLine (width : Nat) : List (List Char) → List (List Char) → Nat →
    List (List Char) × List (List Char) × Nat
  | [], acc, len => (acc, [], len)
  | c :: cs, acc, len =>
    if len + c.length ≤ width then fillLine width cs (c :: acc) (len + c.length)
    else (acc, c :: cs, len)

/-- Join of a nearest-first line accumulator into one line. -/
def joinLine (acc : List (List Char)) : List Char :=
  acc.reverse.flatten

/-- Body of one iteration of TextWrapper._wrap_chunks after the
leading-whitespace drop: greedily fill the current line, split an
oversized head chunk via _handle_long_word, and drop a trailing
whitespace piece. Returns the finished line pieces (nearest first) and
the remaining chunks. -/
def wrapOneLine (width : Nat) (chunks : List (List Char)) :
    List (List Char) × List (List Char) :=
  let filled := fillLine width chunks [] 0
  let cur := filled.1
  let rest := filled.2.1
  let curLen := filled.2.2
  let afterLong :=
    match rest with
    | c :: cs =>
      if width < c.length then
        let hlw := handleLongWord width curLen c
        (hlw.1 :: cur, hlw.2 :: cs)
      else (cur, rest)
    | [] => (cur, rest)
  let cur3 :=
    match afterLong.1 with
    | p :: ps => if p.all isSpaceChar then ps else afterLong.1
    | [] => afterLong.1
  (cur3, afterLong.2)

/-- The loop of TextWrapper._wrap_chunks (no indents, default
drop_whitespace), on fuel: drop a leading whitespace chunk when a line
was already produced, build one line, and emit it when non-empty. -/
def wrapChunksLoop : Nat → Nat → List (List Char) → List (List Char) → List (List Char)
  | 0, _, _, lines => lines.reverse
  | fuel + 1, width, chunks, lines =>
    match chunks with
    | [] => lines.reverse
    | c0 :: cs0 =>
      let chunks1 :=
        if c0.all isSpaceChar ∧ lines ≠ [] then cs0 else c0 :: cs0
      let step := wrapOneLine width chunks1
      let lines' :=
        match step.1 with
        | [] => lines
        | _ => joinLine step.1 :: lines
      wrapChunksLoop fuel width step.2 lines'

/-- Fuel sufficient for the wrapping loop: every iteration removes at
least one character or one chunk from the chunk list. -/
def wrapFuel (chunks : List (List Char)) : Nat :=
  (chunks.map List.length).sum + chunks.length + 1

/-- Model of textwrap.wrap(text, width) with the default TextWrapper:
munge whitespace, split into wordsep chunks, and wrap greedily. A
non-positive width raises ValueError in the source; the model returns
none there. -/
def textwrapWrap (width : Int) (text : String) : Option (List String) :=
  if width ≤ 0 then none
  else
    let chunks := splitChunks (mungeWhitespace text.data)
    some ((wrapChunksLoop (wrapFuel chunks) width.toNat chunks []).map
      (fun l => String.mk l))

/-! ## PIL environment model

The interactions of the compositor with the outside world (filesystem, font
loading, text measurement, image decoding and encoding) are supplied by
an explicit environment. Text metrics are uninterpreted functions of the
drawn string, one record per loaded (font file, point size) pair, exactly
the data that draw.textlength / draw.textbbox return in PIL. -/

/-- Result of draw.textbbox((0, 0), text, font): the ink box of the text
drawn with its top-left anchor at the origin. -/
structure BBox where
  left : Int
  top : Int
  right : Int
  bottom : Int
deriving Repr, DecidableEq

/-- Metrics of one loaded font: pixel advance of a string
(draw.textlength), its ink bounding box at the origin (draw.textbbox)
and the multiline bounding box (draw.multiline_textbbox), all as
supplied by the rendering library. -/
structure FontMetrics where
  textlength : String → ℚ
  textbbox : String → BBox
  multilineTextbbox : String → BBox

/-- An in-memory raster: dimensions plus pixel mode. -/
structure Img where
  width : Nat
  height : Nat
  mode : String
deriving Repr, DecidableEq

/-- The external world as the compositor can observe it. cwd and noise
model process state the compositor never consults (working directory,
unrelated files): the determinism and path-resolution claims are stated
against them. -/
structure PILEnv where
  moduleDir : String
  fileExists : String → Bool
  truetypeOk : String → Nat → Bool
  metrics : String → Nat → FontMetrics
  openSize : String → Option (Nat × Nat)
  saveOk : String → Bool
  cwd : String
  noise : Nat

/-- Python int() applied to an exact quantity: truncation toward zero,
computed as the truncating integer division of the reduced numerator by
the denominator. -/
def pyInt (q : ℚ) : Int :=
  Int.tdiv q.num (q.den : Int)

/-- The fonts directory the module searches:
os.path.join(os.path.dirname(__file__), "..", "..", "fonts"). -/
def projectFontDir (env : PILEnv) : String :=
  env.moduleDir ++ "/../../fonts"

/-- Model of _find_font_file: walk the candidate list in order and
return the joined path of the first candidate that exists in the fonts
directory; None when none does. -/
def find_font_file (env : PILEnv) : List String → Option String
  | [] => none
  | font_name :: rest =>
    let font_path := projectFontDir env ++ "/" ++ font_name
    if env.fileExists font_path then some font_path
    else find_font_file env rest

/-! ## Shared layout definitions of add_text_to_image -/

/-- Inter-line spacing of the title block, int(80 * 0.2) in the source. -/
def title_spacing : Int := 16

/-- Inter-line spacing of the body block, int(45 * 0.2) in the source. -/
def exp_spacing : Int := 9

/-- The fixed gap added between the title and body blocks. -/
def space_between_blocks : Int := 60

/-- Padding of the backing rectangle around the text. -/
def overlayPadding : Int := 30

/-- Height bbox[3] - bbox[1] of one line under a font, as the stacking
loops measure it. -/
def bboxHeight (m : FontMetrics) (line : String) : Int :=
  (m.textbbox line).bottom - (m.textbbox line).top

/-- One accumulation loop of the source: starting from init, add each
measured height of each line plus the inter-line spacing of the block. -/
def blockFold (m : FontMetrics) (spacing : Int) (init : Int) (lines : List String) : Int :=
  lines.foldl (fun acc line => acc + bboxHeight m line + spacing) init

/-- The total_height computation of add_text_to_image: start at
-title_spacing, add the height of every title line plus title spacing,
add the inter-block gap unconditionally, then add the height of every
body line
plus body spacing. -/
def layoutTotalHeight (titleM expM : FontMetrics) (wt we : List String) : Int :=
  blockFold expM exp_spacing
    (blockFold titleM title_spacing (-title_spacing) wt + space_between_blocks) we

/-- Python max of two values as the builtin max computes it over a
sequence: keep the current value unless the next is strictly larger. -/
def pyMax (acc x : ℚ) : ℚ :=
  if acc < x then x else acc

/-- The max_line_width computation: the Python max over the measured
advances of all lines of both blocks, or 0 when both are empty. -/
def maxLineWidth (titleM expM : FontMetrics) (wt we : List String) : ℚ :=
  match wt.map titleM.textlength ++ we.map expM.textlength with
  | [] => 0
  | x :: xs => xs.foldl pyMax x

/-- The backing rectangle bg_bbox as drawn: left and top at the margin
minus the padding, right at margin + max line width + padding, bottom at
margin + total height + padding. -/
def backingRect (margin : Int) (maxW : ℚ) (totalH : Int) : ℚ × ℚ × ℚ × ℚ :=
  (((margin - overlayPadding : Int) : ℚ), ((margin - overlayPadding : Int) : ℚ),
   (margin : ℚ) + maxW + (overlayPadding : ℚ), ((margin + totalH + overlayPadding : Int) : ℚ))

/-- One drawing loop of the source: each line is drawn at
(margin, current_y) and current_y then advances by the measured
height plus the spacing. The result lists each line with its y. -/
def stackDraws (m : FontMetrics) (spacing : Int) : Int → List String → List (String × Int)
  | _, [] => []
  | y, line :: rest =>
    (line, y) :: stackDraws m spacing (y + bboxHeight m line + spacing) rest

/-- Wrap-width estimation shared by both renderers: usable pixel width
divided by the measured reference-glyph advance, truncated to an int,
with the fixed fallback when the measured advance is not positive. -/
def wrapAtCount (usable : Int) (avg : ℚ) (fallback : Int) : Int :=
  if 0 < avg then pyInt ((usable : ℚ) / avg) else fallback

/-! ## The two render entry points -/

/-- Description of one rendered branded headline slide, as far as its
pixels are determined: the drawn badge, the wrapped headline and its
vertical anchor, and the saved raster. -/
structure BrandedRender where
  outputPath : String
  image : Img
  tagRect : Int × Int × Int × Int
  wrappedText : String
  textY : ℚ
deriving DecidableEq

/-- The body of create_branded_headline_slide inside its try block; an
Except.error is any exception the Python body would raise. width * 0.1
is modelled as the exact rational w/10, which truncates to the same
margin (102) as the float product. The text_y float division is the
exact rational division. -/
def create_branded_headline_slideE (env : PILEnv) (headline_text output_path : String) :
    Except String (Bool × Option BrandedRender) :=
  let width : Int := 1024
  let height : Int := 1024
  let main_font_path := find_font_file env ["PlayfairDisplay-ExtraBold.ttf"]
  let tag_font_path := find_font_file env ["Inter-Bold.ttf"]
  match main_font_path, tag_font_path with
  | some mainPath, some tagPath =>
    if env.truetypeOk mainPath 80 then
      if env.truetypeOk tagPath 24 then
        if env.truetypeOk tagPath 20 then
          let mainM := env.metrics mainPath 80
          let margin : Int := pyInt ((width : ℚ) * (1 / 10))
          let avg_char_width := mainM.textlength "A"
          let wrap_at_char_count : Int := wrapAtCount (width - 2 * margin) avg_char_width 20
          match textwrapWrap wrap_at_char_count headline_text with
          | none => Except.error "ValueError: invalid width"
          | some lines =>
            let wrapped_text := String.intercalate "\n" lines
            let text_bbox := mainM.multilineTextbbox wrapped_text
            let text_height := text_bbox.bottom - text_bbox.top
            let text_y : ℚ := ((height - text_height : Int) : ℚ) / 2
            if env.saveOk output_path then
              Except.ok (true, some
                { outputPath := output_path
                  image := ⟨1024, 1024, "RGB"⟩
                  tagRect := (margin, margin, margin + 180, margin + 40)
                  wrappedText := wrapped_text
                  textY := text_y })
            else Except.error "IOFailure"
        else Except.error "font load failed"
      else Except.error "font load failed"
    else Except.error "font load failed"
  | _, _ => Except.ok (false, none)

/-- create_branded_headline_slide with its surrounding try/except: any
exception is caught and reported as a False return with nothing saved. -/
def create_branded_headline_slide (env : PILEnv) (headline_text output_path : String) :
    Bool × Option BrandedRender :=
  match create_branded_headline_slideE env headline_text output_path with
  | .ok r => r
  | .error _ => (false, none)

/-- Description of one rendered overlay slide: the saved raster, the
overlay layer size, the backing rectangle and every drawn line with its
y position. -/
structure OverlayRender where
  outputPath : String
  image : Img
  layerSize : Nat × Nat
  bgRect : ℚ × ℚ × ℚ × ℚ
  titleDraws : List (String × Int)
  expDraws : List (String × Int)
deriving DecidableEq

/-- The body of add_text_to_image inside its try block. img_width * 0.08
is modelled as the exact rational 8w/100, which truncates to the same
margin as the float product for every width. -/
def add_text_to_imageE (env : PILEnv) (image_path slide_title slide_text output_path : String) :
    Except String (Bool × Option OverlayRender) :=
  match env.openSize image_path with
  | none => Except.error "BackgroundLoadFailure"
  | some (w, h) =>
    let title_font_path := find_font_file env ["Inter-Bold.ttf"]
    let explanation_font_path := find_font_file env ["Inter-Regular.ttf"]
    match title_font_path, explanation_font_path with
    | some titlePath, some expPath =>
      if env.truetypeOk titlePath 80 then
        if env.truetypeOk expPath 45 then
          let titleM := env.metrics titlePath 80
          let expM := env.metrics expPath 45
          let margin : Int := pyInt ((w : ℚ) * (8 / 100))
          let max_text_width_pixels : Int := (w : Int) - 2 * margin
          let avg_char_width_title := titleM.textlength "a"
          let wrap_title_at : Int := wrapAtCount max_text_width_pixels avg_char_width_title 30
          match textwrapWrap wrap_title_at slide_title with
          | none => Except.error "ValueError: invalid width"
          | some wrapped_title =>
            let avg_char_width_exp := expM.textlength "a"
            let wrap_exp_at : Int := wrapAtCount max_text_width_pixels avg_char_width_exp 50
            match textwrapWrap wrap_exp_at slide_text with
            | none => Except.error "ValueError: invalid width"
            | some wrapped_explanation =>
              let total_height := layoutTotalHeight titleM expM wrapped_title wrapped_explanation
              let max_line_width := maxLineWidth titleM expM wrapped_title wrapped_explanation
              let bg_bbox := backingRect margin max_line_width total_height
              let titleDraws := stackDraws titleM title_spacing margin wrapped_title
              let yAfterTitle := blockFold titleM title_spacing margin wrapped_title
              let expDraws := stackDraws expM exp_spacing
                (yAfterTitle + space_between_blocks) wrapped_explanation
              if env.saveOk output_path then
                Except.ok (true, some
                  { outputPath := output_path
                    image := ⟨w, h, "RGB"⟩
                    layerSize := (w, h)
                    bgRect := bg_bbox
                    titleDraws := titleDraws
                    expDraws := expDraws })
              else Except.error "IOFailure"
        else Except.error "font load failed"
      else Except.error "font load failed"
    | _, _ => Except.ok (false, none)

/-- add_text_to_image with its surrounding try/except: any exception is
caught and reported as a False return with nothing saved. -/
def add_text_to_image (env : PILEnv) (image_path slide_title slide_text output_path : String) :
    Bool × Option OverlayRender :=
  match add_text_to_imageE env image_path slide_title slide_text output_path with
  | .ok r => r
  | .error _ => (false, none)

/-! ## Derived geometric notions -/

/-- Ink box of one drawn line: its textbbox translated to its
draw position (margin, y), which is how PIL places text drawn with the
default top-left anchor. -/
def inkBox (m : FontMetrics) (margin : Int) (d : String × Int) : BBox :=
  { left := margin + (m.textbbox d.1).left
    top := d.2 + (m.textbbox d.1).top
    right := margin + (m.textbbox d.1).right
    bottom := d.2 + (m.textbbox d.1).bottom }

/-- Containment of an ink box inside the backing rectangle. -/
def rectContains (r : ℚ × ℚ × ℚ × ℚ) (b : BBox) : Prop :=
  r.1 ≤ (b.left : ℚ) ∧ r.2.1 ≤ (b.top : ℚ) ∧
    (b.right : ℚ) ≤ r.2.2.1 ∧ (b.bottom : ℚ) ≤ r.2.2.2

instance (r : ℚ × ℚ × ℚ × ℚ) (b : BBox) : Decidable (rectContains r b) := by
  unfold rectContains; infer_instance

/-- Height of a block as §4.3 of the specification words it: the sum of
the line heights plus one inter-line spacing between consecutive lines.
This definition follows the specification, for comparison with the
layout the code computes. -/
def specBlockHeight (m : FontMetrics) (spacing : Int) (lines : List String) : Int :=
  (lines.map (bboxHeight m)).sum + ((lines.length : Int) - 1) * spacing

/-! ## Concrete environments for closed instances -/

/-- Plausible constant metrics: every glyph advances 10 pixels, every
ink box of every line spans vertical [10, 60] from the draw position. -/
def stdMetrics : FontMetrics where
  textlength s := 10 * (s.length : ℚ)
  textbbox s := ⟨0, 10, 10 * (s.length : Int), 60⟩
  multilineTextbbox s := ⟨0, 10, 10 * (s.length : Int), 60⟩

/-- Environment in which all three project fonts exist, fonts load, any
background decodes as a 1024 by 1024 raster and saving succeeds. -/
def okEnv : PILEnv where
  moduleDir := "src/image_compositor"
  fileExists p :=
    p = "src/image_compositor/../../fonts/PlayfairDisplay-ExtraBold.ttf" ||
    p = "src/image_compositor/../../fonts/Inter-Bold.ttf" ||
    p = "src/image_compositor/../../fonts/Inter-Regular.ttf"
  truetypeOk _ _ := true
  metrics _ _ := stdMetrics
  openSize _ := some (1024, 1024)
  saveOk _ := true
  cwd := "/home/user"
  noise := 0

/-- okEnv observed from a different working directory with different
unrelated process state. -/
def okEnvShifted : PILEnv :=
  { okEnv with cwd := "/tmp/elsewhere", noise := 7 }

/-- Environment with every font file absent. -/
def noFontEnv : PILEnv :=
  { okEnv with fileExists := fun _ => false }

/-! ## Helper lemmas -/

theorem blockFold_eq (m : FontMetrics) (sp : Int) :
    ∀ (lines : List String) (init : Int),
      blockFold m sp init lines =
        init + ((lines.map (bboxHeight m)).sum + (lines.length : Int) * sp)
  | [], init => by simp [blockFold]
  | l :: ls, init => by
    have ih := blockFold_eq m sp ls (init + bboxHeight m l + sp)
    simp only [blockFold, List.foldl_cons] at ih ⊢
    rw [ih]
    simp only [List.map_cons, List.sum_cons, List.length_cons]
    push_cast
    ring

theorem pyInt_eq_floor (q : ℚ) (hq : 0 ≤ q) : pyInt q = ⌊q⌋ := by
  unfold pyInt
  rw [Rat.floor_def]
  exact Int.tdiv_eq_ediv (Rat.num_nonneg.mpr hq) (Int.ofNat_nonneg q.den)

theorem textwrapWrap_empty (width : Int) (hw : 1 ≤ width) :
    textwrapWrap width "" = some [] := by
  unfold textwrapWrap
  rw [if_neg (by omega)]
  rfl

theorem find_font_file_eq (env : PILEnv) :
    ∀ names : List String,
      find_font_file env names =
        (names.find? fun n => env.fileExists (projectFontDir env ++ "/" ++ n)).map
          (fun n => projectFontDir env ++ "/" ++ n)
  | [] => by simp [find_font_file]
  | n :: ns => by
    by_cases h : env.fileExists (projectFontDir env ++ "/" ++ n)
    · simp [find_font_file, h, List.find?_cons]
    · simp only [find_font_file, h, if_false, Bool.false_eq_true]
      rw [find_font_file_eq env ns, List.find?_cons]
      simp [h]

/-! ## Claim C6 -/

/-- C6: when the display (headline) font is absent from the fonts
directory, create_branded_headline_slide returns False and nothing is
written: the failure return precedes any write, so the filesystem is
unchanged. -/
theorem c6_missing_font_no_output (env : PILEnv) (headline output_path : String)
    (hmiss : env.fileExists (projectFontDir env ++ "/" ++ "PlayfairDisplay-ExtraBold.ttf") = false) :
    create_branded_headline_slide env headline output_path = (false, none) := by
  unfold create_branded_headline_slide create_branded_headline_slideE
  simp [find_font_file, hmiss]

/-- Closed instance of C6: the scenario headline of the specification on the
environment with the display font missing. -/
theorem c6_missing_font_no_output_witness :
    create_branded_headline_slide noFontEnv
      "Central Bank Signals Potential Rate Hike" "out.png" = (false, none) :=
  c6_missing_font_no_output noFontEnv
    "Central Bank Signals Potential Rate Hike" "out.png" rfl

/-! ## Claim C7 -/

/-- C7: font resolution searches the single fonts directory fixed
relative to the module and returns the first candidate, in list order,
that exists there, with no path produced when none exists (the find?
characterisation covers both); and the result never depends on the
process working directory or other process state, only on the module
location and the files present. -/
theorem c7_font_resolution (env : PILEnv) (names : List String) :
    (find_font_file env names =
      (names.find? fun n => env.fileExists (projectFontDir env ++ "/" ++ n)).map
        (fun n => projectFontDir env ++ "/" ++ n)) ∧
    (∀ env' : PILEnv, env'.moduleDir = env.moduleDir →
      env'.fileExists = env.fileExists →
      find_font_file env' names = find_font_file env names) := by
  refine ⟨find_font_file_eq env names, ?_⟩
  intro env' hdir hfs
  rw [find_font_file_eq env names, find_font_file_eq env' names]
  unfold projectFontDir
  rw [hdir, hfs]

/-- Closed instance of C7: resolution picks the first existing
candidate (here the second name in the list) and agrees between two
environments that differ in working directory and process state. -/
theorem c7_font_resolution_witness :
    find_font_file okEnv ["Missing.ttf", "Inter-Bold.ttf"] =
      some "src/image_compositor/../../fonts/Inter-Bold.ttf" ∧
    find_font_file okEnvShifted ["Missing.ttf", "Inter-Bold.ttf"] =
      find_font_file okEnv ["Missing.ttf", "Inter-Bold.ttf"] := by
  constructor
  · rw [(c7_font_resolution okEnv ["Missing.ttf", "Inter-Bold.ttf"]).1]
    rfl
  · exact (c7_font_resolution okEnv ["Missing.ttf", "Inter-Bold.ttf"]).2
      okEnvShifted rfl rfl

/-! ## Claim C9 -/

/-- C9: rendering is deterministic. Both entry points are functions of
the text inputs and of the observable environment (module location,
files present, font loading and metrics, background decoding, save
outcome); two invocations whose environments agree on those
observations, whatever the working directory or unrelated process
state, produce identical render output. -/
theorem c9_deterministic (e1 e2 : PILEnv)
    (headline hout image_path slide_title slide_text out : String)
    (hdir : e1.moduleDir = e2.moduleDir)
    (hfs : e1.fileExists = e2.fileExists)
    (htt : e1.truetypeOk = e2.truetypeOk)
    (hm : e1.metrics = e2.metrics)
    (hop : e1.openSize = e2.openSize)
    (hsv : e1.saveOk = e2.saveOk) :
    create_branded_headline_slide e1 headline hout =
      create_branded_headline_slide e2 headline hout ∧
    add_text_to_image e1 image_path slide_title slide_text out =
      add_text_to_image e2 image_path slide_title slide_text out := by
  obtain ⟨d1, f1, t1, m1, o1, s1, c1, n1⟩ := e1
  obtain ⟨d2, f2, t2, m2, o2, s2, c2, n2⟩ := e2
  simp only at hdir hfs htt hm hop hsv
  subst hdir hfs htt hm hop hsv
  exact ⟨rfl, rfl⟩

/-- Closed instance of C9: the two runs agree between okEnv and the
same environment observed from another working directory with other
process state. -/
theorem c9_deterministic_witness :
    create_branded_headline_slide okEnv "Headline" "h.png" =
      create_branded_headline_slide okEnvShifted "Headline" "h.png" ∧
    add_text_to_image okEnv "bg.png" "Title" "Body" "o.png" =
      add_text_to_image okEnvShifted "bg.png" "Title" "Body" "o.png" :=
  c9_deterministic okEnv okEnvShifted "Headline" "h.png" "bg.png" "Title" "Body" "o.png"
    rfl rfl rfl rfl rfl rfl

theorem createE_ok_inv (env : PILEnv) (a b : String) (r : Bool × Option BrandedRender)
    (h : create_branded_headline_slideE env a b = .ok r) :
    r = (false, none) ∨
      ∃ s, env.saveOk b = true ∧ r = (true, some s) ∧
        s.outputPath = b ∧ s.image = ⟨1024, 1024, "RGB"⟩ := by
  unfold create_branded_headline_slideE at h
  dsimp only at h
  repeat' split at h
  all_goals first
    | (injection h with h; subst h; exact Or.inl rfl)
    | (injection h with h; subst h; exact Or.inr ⟨_, by assumption, rfl, rfl, rfl⟩)
    | (cases h)

theorem addE_ok_inv (env : PILEnv) (p t b o : String) (r : Bool × Option OverlayRender)
    (h : add_text_to_imageE env p t b o = .ok r) :
    r = (false, none) ∨
      ∃ w h2 s, env.openSize p = some (w, h2) ∧ env.saveOk o = true ∧
        r = (true, some s) ∧ s.image = ⟨w, h2, "RGB"⟩ ∧
        s.layerSize = (w, h2) ∧ s.outputPath = o := by
  unfold add_text_to_imageE at h
  dsimp only at h
  repeat' split at h
  all_goals first
    | (injection h with h; subst h; exact Or.inl rfl)
    | (injection h with h; subst h;
       exact Or.inr ⟨_, _, _, by assumption, by assumption, rfl, rfl, rfl, rfl⟩)
    | (cases h)

/-! ## Claim C5 -/

/-- C5: both render entry points report every failure as a boolean
False return with nothing written, and never let a fault escape: for
every environment (hence every combination of missing fonts, failing
font loads, missing or undecodable backgrounds and failing writes) the
caught result is either a clean False with no output or True with a
saved render. -/
theorem c5_failures_are_boolean (env : PILEnv)
    (headline hout image_path slide_title slide_text out : String) :
    (create_branded_headline_slide env headline hout = (false, none) ∨
      ∃ s, create_branded_headline_slide env headline hout = (true, some s)) ∧
    (add_text_to_image env image_path slide_title slide_text out = (false, none) ∨
      ∃ s, add_text_to_image env image_path slide_title slide_text out = (true, some s)) := by
  constructor
  · unfold create_branded_headline_slide
    cases hE : create_branded_headline_slideE env headline hout with
    | error e => exact Or.inl rfl
    | ok r =>
      rcases createE_ok_inv env headline hout r hE with h | ⟨s, _, hr, _, _⟩
      · exact Or.inl (by rw [h])
      · exact Or.inr ⟨s, by rw [hr]⟩
  · unfold add_text_to_image
    cases hE : add_text_to_imageE env image_path slide_title slide_text out with
    | error e => exact Or.inl rfl
    | ok r =>
      rcases addE_ok_inv env image_path slide_title slide_text out r hE with
        h | ⟨w, h2, s, _, _, hr, _, _, _⟩
      · exact Or.inl (by rw [h])
      · exact Or.inr ⟨s, by rw [hr]⟩

/-! ## Claim C8 -/

/-- C8: every successful add_text_to_image call saved its output at the
requested path, with exactly the dimensions of the background, as an opaque
RGB raster (the RGBA overlay of the same size was composited and
re-encoded without alpha). -/
theorem c8_success_dims_opaque (env : PILEnv) (p t b o : String) (s : OverlayRender)
    (h : add_text_to_image env p t b o = (true, some s)) :
    ∃ w h2, env.openSize p = some (w, h2) ∧ s.image = ⟨w, h2, "RGB"⟩ ∧
      s.layerSize = (w, h2) ∧ s.outputPath = o ∧ env.saveOk o = true := by
  unfold add_text_to_image at h
  cases hE : add_text_to_imageE env p t b o with
  | error e => rw [hE] at h; cases h
  | ok r =>
    rw [hE] at h
    rcases addE_ok_inv env p t b o r hE with hr | ⟨w, h2, s', hop, hsv, hr, him, hl, hpath⟩
    · rw [hr] at h; cases h
    · rw [hr] at h
      injection h with h1 h2'
      injection h2' with h2'
      subst h2'
      exact ⟨w, h2, hop, him, hl, hpath, hsv⟩

/-- The overlay render okEnv produces for the scenario title and
body on a 1024 by 1024 gray background. -/
def marketRender : OverlayRender where
  outputPath := "out.png"
  image := ⟨1024, 1024, "RGB"⟩
  layerSize := (1024, 1024)
  bgRect := (51, 51, 741, 280)
  titleDraws := [("The Market Reacts", 81)]
  expDraws := [("Investors are cautiously optimistic following the announcement.", 207)]

/-- Closed instance of C8: the specified scenario renders successfully and
the theorem yields the background dimensions, RGB mode and the
requested output path. -/
theorem c8_success_dims_opaque_witness :
    add_text_to_image okEnv "bg.png" "The Market Reacts"
      "Investors are cautiously optimistic following the announcement." "out.png" =
      (true, some marketRender) ∧
    ∃ w h2, okEnv.openSize "bg.png" = some (w, h2) ∧
      marketRender.image = ⟨w, h2, "RGB"⟩ ∧ marketRender.layerSize = (w, h2) ∧
      marketRender.outputPath = "out.png" ∧ okEnv.saveOk "out.png" = true := by
  have hrun : add_text_to_image okEnv "bg.png" "The Market Reacts"
      "Investors are cautiously optimistic following the announcement." "out.png" =
      (true, some marketRender) := by with_unfolding_all decide
  exact ⟨hrun, c8_success_dims_opaque okEnv "bg.png" "The Market Reacts"
    "Investors are cautiously optimistic following the announcement." "out.png"
    marketRender hrun⟩

/-! ## Claim C2 -/

theorem fillLine_inv (width : Nat) :
    ∀ (chunks acc : List (List Char)) (len : Nat) (cur rest : List (List Char)) (len2 : Nat),
      fillLine width chunks acc len = (cur, rest, len2) →
      len ≤ width → (acc.map List.length).sum = len →
      len2 ≤ width ∧ (cur.map List.length).sum = len2
  | [], acc, len, cur, rest, len2 => by
    intro heq h1 h2
    simp only [fillLine, Prod.mk.injEq] at heq
    obtain ⟨ha, _, hl⟩ := heq
    subst ha hl
    exact ⟨h1, h2⟩
  | c :: cs, acc, len, cur, rest, len2 => by
    intro heq h1 h2
    simp only [fillLine] at heq
    split at heq
    · exact fillLine_inv width cs (c :: acc) (len + c.length) cur rest len2 heq
        (by assumption) (by simp [h2]; omega)
    · simp only [Prod.mk.injEq] at heq
      obtain ⟨ha, _, hl⟩ := heq
      subst ha hl
      exact ⟨h1, h2⟩

theorem rfindHyphenAux_bound :
    ∀ (cs : List Char) (i : Nat) (acc : Option Nat) (j : Nat),
      rfindHyphenAux cs i acc = some j → acc = some j ∨ (i ≤ j ∧ j < i + cs.length)
  | [], i, acc, j => by
    intro h
    simp only [rfindHyphenAux] at h
    exact Or.inl h
  | c :: cs, i, acc, j => by
    intro h
    simp only [rfindHyphenAux] at h
    rcases rfindHyphenAux_bound cs (i + 1) _ j h with h' | ⟨h1, h2⟩
    · split at h'
      · injection h' with h'
        subst h'
        right
        simp only [List.length_cons]
        omega
      · exact Or.inl h'
    · right
      simp only [List.length_cons]
      omega

theorem rfindHyphen_lt (c : List Char) (bound j : Nat)
    (h : rfindHyphen c bound = some j) : j < bound := by
  unfold rfindHyphen at h
  rcases rfindHyphenAux_bound _ _ _ _ h with h' | ⟨_, h2⟩
  · cases h'
  · have ht : (c.take bound).length ≤ bound := by
      rw [List.length_take]
      omega
    omega

theorem handleLongWord_bound (width curLen : Nat) (chunk : List Char)
    (hw : 1 ≤ width) (hc : curLen ≤ width) :
    ((handleLongWord width curLen chunk).1).length + curLen ≤ width := by
  unfold handleLongWord
  dsimp only
  rw [if_neg (by omega : ¬ width < 1)]
  by_cases hsl : width - curLen < chunk.length
  · rw [if_pos hsl]
    rcases hfind : rfindHyphen chunk (width - curLen) with _ | i
    · dsimp only
      have hlt : (List.take (width - curLen) chunk).length ≤ width - curLen :=
        List.length_take_le _ _
      omega
    · dsimp only
      have hi := rfindHyphen_lt chunk (width - curLen) i hfind
      split
      · have hlt : (List.take (i + 1) chunk).length ≤ i + 1 :=
          List.length_take_le _ _
        omega
      · have hlt : (List.take (width - curLen) chunk).length ≤ width - curLen :=
          List.length_take_le _ _
        omega
  · rw [if_neg hsl]
    have hlt : (List.take (width - curLen) chunk).length ≤ width - curLen :=
      List.length_take_le _ _
    omega

theorem joinLine_length (acc : List (List Char)) :
    (joinLine acc).length = (acc.map List.length).sum := by
  simp [joinLine, List.sum_reverse]

theorem wrapOneLine_bound (width : Nat) (hw : 1 ≤ width) (chunks : List (List Char)) :
    (((wrapOneLine width chunks).1).map List.length).sum ≤ width := by
  rcases hfill : fillLine width chunks [] 0 with ⟨cur, rest, len2⟩
  obtain ⟨hlen2, hsum⟩ := fillLine_inv width chunks [] 0 cur rest len2 hfill
    (by omega) (by simp)
  have hcurw : ((cur.map List.length).sum) ≤ width := by omega
  cases rest with
  | nil =>
    unfold wrapOneLine
    rw [hfill]
    dsimp only
    cases cur with
    | nil => simpa using Nat.zero_le width
    | cons p ps =>
      dsimp only
      simp only [List.map_cons, List.sum_cons] at hcurw
      split
      · omega
      · simp only [List.map_cons, List.sum_cons]
        omega
  | cons c cs =>
    unfold wrapOneLine
    rw [hfill]
    dsimp only
    by_cases hlong : width < c.length
    · rw [if_pos hlong]
      dsimp only
      have hh := handleLongWord_bound width len2 c hw hlen2
      split
      · omega
      · simp only [List.map_cons, List.sum_cons]
        omega
    · rw [if_neg hlong]
      dsimp only
      cases cur with
      | nil => simpa using Nat.zero_le width
      | cons p ps =>
        dsimp only
        simp only [List.map_cons, List.sum_cons] at hcurw
        split
        · omega
        · simp only [List.map_cons, List.sum_cons]
          omega

theorem wrapChunksLoop_len :
    ∀ (fuel width : Nat), 1 ≤ width →
      ∀ (chunks lines : List (List Char)),
        (∀ l ∈ lines, l.length ≤ width) →
        ∀ l ∈ wrapChunksLoop fuel width chunks lines, l.length ≤ width
  | 0, width => by
    intro hw chunks lines hlines l hl
    simp only [wrapChunksLoop] at hl
    exact hlines l (List.mem_reverse.mp hl)
  | fuel + 1, width => by
    intro hw chunks lines hlines l hl
    cases chunks with
    | nil =>
      simp only [wrapChunksLoop] at hl
      exact hlines l (List.mem_reverse.mp hl)
    | cons c0 cs0 =>
      simp only [wrapChunksLoop] at hl
      refine wrapChunksLoop_len fuel width hw _ _ ?_ l hl
      intro l' hl'
      split at hl'
      · exact hlines l' hl'
      · rcases List.mem_cons.mp hl' with h | h
        · subst h
          rw [joinLine_length]
          exact wrapOneLine_bound width hw _
        · exact hlines l' h

/-- C2 amended: for every positive width, the greedy wrapping loop
never emits a line longer than the width, whatever chunk list the
wordsep split supplies (first conjunct, independent of the chunker and
so of any character-class reading), and in particular the full
wrapping step never produces a line longer than the width for any
input string (second conjunct) — including when a single word exceeds
the width, because break_long_words (the default) splits such a word
instead of emitting an over-long line (see the counterexample for the
split). -/
theorem c2_amended_lines_within_width :
    (∀ (fuel width : Nat) (chunks : List (List Char)), 1 ≤ width →
      ∀ l ∈ wrapChunksLoop fuel width chunks [], l.length ≤ width) ∧
    (∀ (text : String) (width : Int), 1 ≤ width →
      ∀ lines, textwrapWrap width text = some lines →
        ∀ l ∈ lines, l.length ≤ width.toNat) := by
  constructor
  · intro fuel width chunks hw
    exact wrapChunksLoop_len fuel width hw chunks [] (by simp)
  · intro text width hw lines hwrap
    unfold textwrapWrap at hwrap
    rw [if_neg (by omega)] at hwrap
    injection hwrap with hwrap
    subst hwrap
    intro l hl
    rcases List.mem_map.mp hl with ⟨cs, hcs, hmk⟩
    subst hmk
    show cs.length ≤ width.toNat
    exact wrapChunksLoop_len _ width.toNat (by omega) _ [] (by simp) cs hcs

/-- Closed instance of C2 amended at the counterexample input: the
first line emitted for the whitespace-free six-character word at
width 3 is within the width, both at the loop level on the concrete
chunk list and through the full wrapping step. -/
theorem c2_amended_lines_within_width_witness :
    "abc".data.length ≤ 3 ∧ "abc".length ≤ (3 : Int).toNat :=
  ⟨c2_amended_lines_within_width.1 (wrapFuel ["abcdef".data]) 3 ["abcdef".data]
     (by norm_num) "abc".data (by with_unfolding_all decide),
   c2_amended_lines_within_width.2 "abcdef" 3 (by norm_num) ["abc", "def"]
     (by with_unfolding_all decide) "abc" (by simp)⟩

/-- C2 as stated is false: wrapping does split a word. The
whitespace-free word "abcdef" wrapped at width 3 is split into two
lines "abc" and "def" (neither exceeding the width), whereas the claim
says a word is never split and that a longer-than-width word yields a
line exceeding the width. -/
theorem c2_counterexample :
    textwrapWrap 3 "abcdef" = some ["abc", "def"] ∧
    (∀ c ∈ "abcdef".data, isSpaceChar c = false) ∧
    3 < "abcdef".length := by
  refine ⟨by with_unfolding_all decide, by decide, by decide⟩

/-! ## Claim C3 -/

/-- Metrics of a degenerate wide font: the reference glyph measures 40
pixels. -/
def wideMetrics : FontMetrics where
  textlength _ := 40
  textbbox _ := ⟨0, 10, 40, 60⟩
  multilineTextbbox _ := ⟨0, 10, 40, 60⟩

/-- okEnv with a 10 pixel wide background and the wide font. -/
def tinyBgEnv : PILEnv :=
  { okEnv with openSize := fun _ => some (10, 10), metrics := fun _ _ => wideMetrics }

/-- C3 as stated is false: the computed wrap width is not always at
least 1. On a 10 pixel wide background (margin 0, usable width 10) with
a measured reference-glyph advance of 40 the wrap width passed to the
wrapping step is 0, and the ValueError of the wrapping step makes the whole
call fail. -/
theorem c3_counterexample :
    wrapAtCount ((10 : Int) - 2 * pyInt ((10 : ℚ) * (8 / 100)))
        ((tinyBgEnv.metrics "src/image_compositor/../../fonts/Inter-Bold.ttf" 80).textlength "a")
        30 = 0 ∧
    add_text_to_image tinyBgEnv "bg.png" "Title" "Body" "out.png" = (false, none) := by
  constructor
  · with_unfolding_all decide
  · with_unfolding_all decide

/-- C3 amended: a zero-or-negative measured reference-glyph advance
yields the fixed fallback count, and the computed wrap width is at
least 1 whenever the positive measured advance does not exceed the
usable width; when the positive advance exceeds the usable width the
wrap width is 0 or negative and the render fails (see the
counterexample). -/
theorem c3_amended_wrap_width :
    (∀ (usable : Int) (avg : ℚ) (fallback : Int),
      avg ≤ 0 → wrapAtCount usable avg fallback = fallback) ∧
    (∀ (usable : Int) (avg : ℚ) (fallback : Int),
      0 < avg → avg ≤ (usable : ℚ) → 1 ≤ wrapAtCount usable avg fallback) := by
  constructor
  · intro usable avg fb h
    unfold wrapAtCount
    rw [if_neg (not_lt.mpr h)]
  · intro usable avg fb h hle
    unfold wrapAtCount
    have husable : (0 : ℚ) ≤ (usable : ℚ) := le_trans h.le hle
    rw [if_pos h, pyInt_eq_floor _ (div_nonneg husable h.le)]
    refine Int.le_floor.mpr ?_
    rw [Int.cast_one, le_div_iff₀ h, one_mul]
    exact hle

/-- Closed instance of C3 amended: a non-positive advance falls back to
the fixed count, and the branded slide usable width 820 at advance 10
gives a wrap width of at least 1. -/
theorem c3_amended_wrap_width_witness :
    wrapAtCount 820 0 20 = 20 ∧ 1 ≤ wrapAtCount 862 10 30 :=
  ⟨c3_amended_wrap_width.1 820 0 20 le_rfl,
   c3_amended_wrap_width.2 862 10 30 (by norm_num) (by norm_num)⟩

/-! ## Claim C4 -/

/-- Combined per-line contribution of a block: the measured
height plus the inter-line spacing of the block. -/
def heightsSum (m : FontMetrics) (sp : Int) (lines : List String) : Int :=
  (lines.map (fun l => bboxHeight m l + sp)).sum

theorem blockFold_heightsSum (m : FontMetrics) (sp : Int) :
    ∀ (lines : List String) (init : Int),
      blockFold m sp init lines = init + heightsSum m sp lines
  | [], init => by simp [blockFold, heightsSum]
  | l :: ls, init => by
    have ih := blockFold_heightsSum m sp ls (init + bboxHeight m l + sp)
    simp only [blockFold, List.foldl_cons] at ih ⊢
    rw [ih]
    simp only [heightsSum, List.map_cons, List.sum_cons]
    ring

theorem heightsSum_nonneg (m : FontMetrics) (sp : Int) (lines : List String)
    (hsp : 0 ≤ sp) (hh : ∀ l ∈ lines, 0 ≤ bboxHeight m l) :
    0 ≤ heightsSum m sp lines := by
  apply List.sum_nonneg
  intro x hx
  rcases List.mem_map.mp hx with ⟨l, hl, rfl⟩
  have := hh l hl
  omega

theorem stackDraws_mem (m : FontMetrics) (sp : Int) :
    ∀ (lines : List String) (y0 : Int) (l : String) (y : Int),
      (l, y) ∈ stackDraws m sp y0 lines →
      ∃ pre post, lines = pre ++ l :: post ∧ y = y0 + heightsSum m sp pre
  | [], y0, l, y => by
    intro h
    simp [stackDraws] at h
  | line :: rest, y0, l, y => by
    intro h
    simp only [stackDraws, List.mem_cons, Prod.mk.injEq] at h
    rcases h with ⟨h1, h2⟩ | h
    · subst h1 h2
      exact ⟨[], rest, rfl, by simp [heightsSum]⟩
    · obtain ⟨pre, post, heq, hy⟩ :=
        stackDraws_mem m sp rest (y0 + bboxHeight m line + sp) l y h
      refine ⟨line :: pre, post, by rw [heq]; rfl, ?_⟩
      rw [hy]
      simp only [heightsSum, List.map_cons, List.sum_cons]
      ring

theorem le_foldl_pyMax :
    ∀ (xs : List ℚ) (x : ℚ), x ≤ xs.foldl pyMax x ∧ ∀ y ∈ xs, y ≤ xs.foldl pyMax x
  | [], x => by simp
  | z :: zs, x => by
    have hxz : x ≤ pyMax x z ∧ z ≤ pyMax x z := by
      unfold pyMax
      split
      · exact ⟨le_of_lt (by assumption), le_rfl⟩
      · exact ⟨le_rfl, le_of_not_lt (by assumption)⟩
    obtain ⟨h1, h2⟩ := le_foldl_pyMax zs (pyMax x z)
    simp only [List.foldl_cons]
    refine ⟨le_trans hxz.1 h1, ?_⟩
    intro y hy
    rcases List.mem_cons.mp hy with rfl | hy
    · exact le_trans hxz.2 h1
    · exact h2 y hy

theorem mem_le_maxLineWidth (titleM expM : FontMetrics) (wt we : List String) (q : ℚ)
    (hq : q ∈ wt.map titleM.textlength ++ we.map expM.textlength) :
    q ≤ maxLineWidth titleM expM wt we := by
  unfold maxLineWidth
  rcases hxs : wt.map titleM.textlength ++ we.map expM.textlength with _ | ⟨x, xs⟩
  · rw [hxs] at hq
    cases hq
  · rw [hxs] at hq
    rcases List.mem_cons.mp hq with rfl | hq
    · exact (le_foldl_pyMax xs q).1
    · exact (le_foldl_pyMax xs x).2 q hq

/-- C4 amended: the backing rectangle contains the exact
bounding box provided the fonts' metrics are benign: for every line a
bounding box whose top offset is at least -30 (the padding), whose top
is above its bottom, whose left offset is at least -30, whose right
edge does not exceed the measured advance by more than the padding, and
— for body lines only — whose top offset is at most 23, that is, the
padding minus the difference of the two inter-line spacings. Without
the last condition the rectangle can be overrun (see the
counterexample): the stacking measures tight bbox heights but draws at
the top anchor, so a body glyph with ink far below its bbox top
overshoots the bottom of the rectangle. -/
theorem c4_amended_containment (titleM expM : FontMetrics) (margin : Int)
    (wt we : List String)
    (htitle : ∀ l ∈ wt,
      -overlayPadding ≤ (titleM.textbbox l).top ∧
      (titleM.textbbox l).top ≤ space_between_blocks + overlayPadding ∧
      (titleM.textbbox l).top ≤ (titleM.textbbox l).bottom ∧
      -overlayPadding ≤ (titleM.textbbox l).left ∧
      (((titleM.textbbox l).right : ℚ) ≤ titleM.textlength l + ((overlayPadding : Int) : ℚ)))
    (hexp : ∀ l ∈ we,
      -overlayPadding ≤ (expM.textbbox l).top ∧
      (expM.textbbox l).top ≤ overlayPadding - (title_spacing - exp_spacing) ∧
      (expM.textbbox l).top ≤ (expM.textbbox l).bottom ∧
      -overlayPadding ≤ (expM.textbbox l).left ∧
      (((expM.textbbox l).right : ℚ) ≤ expM.textlength l + ((overlayPadding : Int) : ℚ))) :
    (∀ d ∈ stackDraws titleM title_spacing margin wt,
      rectContains
        (backingRect margin (maxLineWidth titleM expM wt we)
          (layoutTotalHeight titleM expM wt we))
        (inkBox titleM margin d)) ∧
    (∀ d ∈ stackDraws expM exp_spacing
        (blockFold titleM title_spacing margin wt + space_between_blocks) we,
      rectContains
        (backingRect margin (maxLineWidth titleM expM wt we)
          (layoutTotalHeight titleM expM wt we))
        (inkBox expM margin d)) := by
  have hhT : ∀ l ∈ wt, 0 ≤ bboxHeight titleM l := by
    intro l hl
    have := (htitle l hl).2.2.1
    unfold bboxHeight
    omega
  have hhE : ∀ l ∈ we, 0 ≤ bboxHeight expM l := by
    intro l hl
    have := (hexp l hl).2.2.1
    unfold bboxHeight
    omega
  have hA0 : 0 ≤ heightsSum titleM title_spacing wt :=
    heightsSum_nonneg _ _ _ (by norm_num [title_spacing]) hhT
  have hB0 : 0 ≤ heightsSum expM exp_spacing we :=
    heightsSum_nonneg _ _ _ (by norm_num [exp_spacing]) hhE
  have htotal : layoutTotalHeight titleM expM wt we =
      heightsSum titleM title_spacing wt + heightsSum expM exp_spacing we + 44 := by
    unfold layoutTotalHeight
    rw [blockFold_heightsSum, blockFold_heightsSum]
    unfold title_spacing space_between_blocks
    ring
  constructor
  · rintro ⟨l, y⟩ hd
    obtain ⟨pre, post, hsplit, hy⟩ := stackDraws_mem _ _ _ _ _ _ hd
    have hl : l ∈ wt := by
      rw [hsplit]
      exact List.mem_append_right _ (List.mem_cons_self _ _)
    obtain ⟨ht1, ht2, ht3, ht4, ht5⟩ := htitle l hl
    have hAsplit : heightsSum titleM title_spacing wt =
        heightsSum titleM title_spacing pre + (bboxHeight titleM l + title_spacing) +
          heightsSum titleM title_spacing post := by
      rw [hsplit]
      simp only [heightsSum, List.map_append, List.sum_append, List.map_cons, List.sum_cons]
      ring
    have hpre0 : 0 ≤ heightsSum titleM title_spacing pre :=
      heightsSum_nonneg _ _ _ (by norm_num [title_spacing]) (by
        intro l' hl'
        exact hhT l' (by rw [hsplit]; exact List.mem_append_left _ hl'))
    have hpost0 : 0 ≤ heightsSum titleM title_spacing post :=
      heightsSum_nonneg _ _ _ (by norm_num [title_spacing]) (by
        intro l' hl'
        exact hhT l' (by
          rw [hsplit]
          exact List.mem_append_right _ (List.mem_cons_of_mem _ hl')))
    have hmaxW : titleM.textlength l ≤ maxLineWidth titleM expM wt we :=
      mem_le_maxLineWidth titleM expM wt we _
        (List.mem_append_left _ (List.mem_map_of_mem _ hl))
    unfold rectContains inkBox backingRect
    dsimp only
    refine ⟨?_, ?_, ?_, ?_⟩
    · have : margin - overlayPadding ≤ margin + (titleM.textbbox l).left := by omega
      exact_mod_cast this
    · have : margin - overlayPadding ≤ y + (titleM.textbbox l).top := by
        rw [hy]
        omega
      exact_mod_cast this
    · push_cast
      linarith [ht5, hmaxW]
    · have : y + (titleM.textbbox l).bottom ≤
          margin + layoutTotalHeight titleM expM wt we + overlayPadding := by
        rw [hy, htotal, hAsplit]
        unfold bboxHeight title_spacing overlayPadding space_between_blocks at *
        omega
      exact_mod_cast this
  · rintro ⟨l, y⟩ hd
    obtain ⟨pre, post, hsplit, hy⟩ := stackDraws_mem _ _ _ _ _ _ hd
    have hl : l ∈ we := by
      rw [hsplit]
      exact List.mem_append_right _ (List.mem_cons_self _ _)
    obtain ⟨he1, he2, he3, he4, he5⟩ := hexp l hl
    have hBsplit : heightsSum expM exp_spacing we =
        heightsSum expM exp_spacing pre + (bboxHeight expM l + exp_spacing) +
          heightsSum expM exp_spacing post := by
      rw [hsplit]
      simp only [heightsSum, List.map_append, List.sum_append, List.map_cons, List.sum_cons]
      ring
    have hpre0 : 0 ≤ heightsSum expM exp_spacing pre :=
      heightsSum_nonneg _ _ _ (by norm_num [exp_spacing]) (by
        intro l' hl'
        exact hhE l' (by rw [hsplit]; exact List.mem_append_left _ hl'))
    have hpost0 : 0 ≤ heightsSum expM exp_spacing post :=
      heightsSum_nonneg _ _ _ (by norm_num [exp_spacing]) (by
        intro l' hl'
        exact hhE l' (by
          rw [hsplit]
          exact List.mem_append_right _ (List.mem_cons_of_mem _ hl')))
    have hmaxW : expM.textlength l ≤ maxLineWidth titleM expM wt we :=
      mem_le_maxLineWidth titleM expM wt we _
        (List.mem_append_right _ (List.mem_map_of_mem _ hl))
    have hy0 : y = margin + heightsSum titleM title_spacing wt + space_between_blocks +
        heightsSum expM exp_spacing pre := by
      rw [hy, blockFold_heightsSum]
    unfold rectContains inkBox backingRect
    dsimp only
    refine ⟨?_, ?_, ?_, ?_⟩
    · have : margin - overlayPadding ≤ margin + (expM.textbbox l).left := by omega
      exact_mod_cast this
    · have : margin - overlayPadding ≤ y + (expM.textbbox l).top := by
        rw [hy0]
        unfold space_between_blocks at *
        omega
      exact_mod_cast this
    · push_cast
      linarith [he5, hmaxW]
    · have : y + (expM.textbbox l).bottom ≤
          margin + layoutTotalHeight titleM expM wt we + overlayPadding := by
        rw [hy0, htotal, hBsplit]
        unfold bboxHeight title_spacing exp_spacing overlayPadding space_between_blocks at *
        omega
      exact_mod_cast this

/-- Closed instance of C4 amended: with the benign constant metrics,
margin 81, a one-line title and a one-line body, every drawn box
lies inside the backing rectangle. -/
theorem c4_amended_containment_witness :
    (∀ d ∈ stackDraws stdMetrics title_spacing 81 ["T"],
      rectContains
        (backingRect 81 (maxLineWidth stdMetrics stdMetrics ["T"] ["Body"])
          (layoutTotalHeight stdMetrics stdMetrics ["T"] ["Body"]))
        (inkBox stdMetrics 81 d)) ∧
    (∀ d ∈ stackDraws stdMetrics exp_spacing
        (blockFold stdMetrics title_spacing 81 ["T"] + space_between_blocks) ["Body"],
      rectContains
        (backingRect 81 (maxLineWidth stdMetrics stdMetrics ["T"] ["Body"])
          (layoutTotalHeight stdMetrics stdMetrics ["T"] ["Body"]))
        (inkBox stdMetrics 81 d)) :=
  c4_amended_containment stdMetrics stdMetrics 81 ["T"] ["Body"]
    (by with_unfolding_all decide) (by with_unfolding_all decide)

/-- Metrics of a body font measured on the body string of the
counterexample: the underscore ink box sits low, vertical [40, 45]
from the draw position, as an underscore glyph's does. -/
def badExpMetrics : FontMetrics where
  textlength s := if s = "_" then 30 else 10 * (s.length : ℚ)
  textbbox s := if s = "_" then ⟨0, 40, 30, 45⟩ else ⟨0, 10, 10 * (s.length : Int), 60⟩
  multilineTextbbox _ := ⟨0, 10, 10, 60⟩

/-- okEnv with the low-ink metrics for the 45 point body font. -/
def lowGlyphEnv : PILEnv :=
  { okEnv with metrics := fun _ size => if size = 45 then badExpMetrics else stdMetrics }

/-- The overlay render lowGlyphEnv produces for title "T" and body "_":
the body line is stacked by its tight height 45 - 40 = 5, so the
rectangle ends at 235 while the underscore ink reaches 252. -/
def lowGlyphRender : OverlayRender where
  outputPath := "out.png"
  image := ⟨1024, 1024, "RGB"⟩
  layerSize := (1024, 1024)
  bgRect := (51, 51, 141, 235)
  titleDraws := [("T", 81)]
  expDraws := [("_", 207)]

/-- C4 as stated is false: a successful render in which the exact
bounding box pokes out of the backing rectangle. The body "_" has ink
box [40, 45] below its draw position; the stacking only reserves its
tight height 5, so the line drawn at y = 207 has ink down to 252 while
the rectangle ends at 235. -/
theorem c4_counterexample :
    add_text_to_image lowGlyphEnv "bg.png" "T" "_" "out.png" =
      (true, some lowGlyphRender) ∧
    ("_", 207) ∈ lowGlyphRender.expDraws ∧
    ¬ rectContains lowGlyphRender.bgRect
        (inkBox (lowGlyphEnv.metrics
          "src/image_compositor/../../fonts/Inter-Regular.ttf" 45) 81 ("_", 207)) := by
  refine ⟨?_, ?_, ?_⟩
  · with_unfolding_all decide
  · with_unfolding_all decide
  · with_unfolding_all decide

/-! ## Claim C1 -/

/-- The overlay render produced by okEnv for title "T" with an empty
body: the 60 pixel inter-block gap is still inside the total height
(total 110 = 50 + 16 - 16 + 60), so the backing rectangle is 170 tall. -/
def emptyBodyRender : OverlayRender where
  outputPath := "out.png"
  image := ⟨1024, 1024, "RGB"⟩
  layerSize := (1024, 1024)
  bgRect := (51, 51, 121, 221)
  titleDraws := [("T", 81)]
  expDraws := []

/-- C1 as stated is false: with a non-empty title and an empty body the
total stacked height is not the title block height and the backing
rectangle is not the title block height plus padding only. With the
title wrapping to one line of measured height 50, the rectangle is 170
tall while the title block height plus padding on both sides is 110:
the 60 pixel inter-block gap is added even though the body is empty. -/
theorem c1_counterexample :
    add_text_to_image okEnv "bg.png" "T" "" "out.png" = (true, some emptyBodyRender) ∧
    emptyBodyRender.bgRect.2.2.2 - emptyBodyRender.bgRect.2.1 = 170 ∧
    ((specBlockHeight stdMetrics title_spacing ["T"] + 2 * overlayPadding : Int) : ℚ) = 110 ∧
    (170 : ℚ) ≠ 110 := by
  refine ⟨?_, ?_, ?_, ?_⟩
  · with_unfolding_all decide
  · with_unfolding_all decide
  · with_unfolding_all decide
  · with_unfolding_all decide

/-- C1 amended: the body loop of the total-height computation
contributes exactly 0 when the body wraps to zero lines, but the fixed
60 pixel inter-block gap is added unconditionally, so with a non-empty
title and an empty body the total stacked height equals the title
block height plus the gap, and the backing rectangle height equals
the title block height plus the gap plus padding on both sides. -/
theorem c1_amended_gap_added (titleM expM : FontMetrics) (wt : List String)
    (hwt : wt ≠ []) (margin : Int) (maxW : ℚ) :
    layoutTotalHeight titleM expM wt [] =
      specBlockHeight titleM title_spacing wt + space_between_blocks ∧
    (backingRect margin maxW (layoutTotalHeight titleM expM wt [])).2.2.2 -
        (backingRect margin maxW (layoutTotalHeight titleM expM wt [])).2.1 =
      ((specBlockHeight titleM title_spacing wt + space_between_blocks +
        2 * overlayPadding : Int) : ℚ) := by
  have h1 : layoutTotalHeight titleM expM wt [] =
      specBlockHeight titleM title_spacing wt + space_between_blocks := by
    unfold layoutTotalHeight specBlockHeight
    rw [show blockFold expM exp_spacing
        (blockFold titleM title_spacing (-title_spacing) wt + space_between_blocks) [] =
        blockFold titleM title_spacing (-title_spacing) wt + space_between_blocks from rfl]
    rw [blockFold_eq]
    ring
  refine ⟨h1, ?_⟩
  rw [h1]
  unfold backingRect
  push_cast
  ring

/-- Closed instance of C1 amended: the one-line title of height 50
gives total height 110 and rectangle height 170. -/
theorem c1_amended_gap_added_witness :
    layoutTotalHeight stdMetrics stdMetrics ["T"] [] =
      specBlockHeight stdMetrics title_spacing ["T"] + space_between_blocks ∧
    (backingRect 81 10 (layoutTotalHeight stdMetrics stdMetrics ["T"] [])).2.2.2 -
        (backingRect 81 10 (layoutTotalHeight stdMetrics stdMetrics ["T"] [])).2.1 =
      ((specBlockHeight stdMetrics title_spacing ["T"] + space_between_blocks +
        2 * overlayPadding : Int) : ℚ) :=
  c1_amended_gap_added stdMetrics stdMetrics ["T"] (by simp) 81 10

/-! ## Claim C10 -/

/-- C10: when both the title and the body wrap to zero lines (both
strings empty), add_text_to_image still succeeds and still draws a
backing rectangle at the top-left margin whose height is the
unconditional 60 pixel inter-block gap minus one title line-spacing
plus padding on both sides, a strictly positive 104 pixels. -/
theorem c10_empty_blocks_rect (env : PILEnv) (p o : String) (w h : Nat)
    (hopen : env.openSize p = some (w, h))
    (hb : env.fileExists (projectFontDir env ++ "/" ++ "Inter-Bold.ttf") = true)
    (hreg : env.fileExists (projectFontDir env ++ "/" ++ "Inter-Regular.ttf") = true)
    (htt : env.truetypeOk (projectFontDir env ++ "/" ++ "Inter-Bold.ttf") 80 = true)
    (hte : env.truetypeOk (projectFontDir env ++ "/" ++ "Inter-Regular.ttf") 45 = true)
    (hsv : env.saveOk o = true)
    (hwt : 1 ≤ wrapAtCount ((w : Int) - 2 * pyInt ((w : ℚ) * (8 / 100)))
      ((env.metrics (projectFontDir env ++ "/" ++ "Inter-Bold.ttf") 80).textlength "a") 30)
    (hwe : 1 ≤ wrapAtCount ((w : Int) - 2 * pyInt ((w : ℚ) * (8 / 100)))
      ((env.metrics (projectFontDir env ++ "/" ++ "Inter-Regular.ttf") 45).textlength "a") 50) :
    add_text_to_image env p "" "" o =
      (true, some
        { outputPath := o
          image := ⟨w, h, "RGB"⟩
          layerSize := (w, h)
          bgRect := backingRect (pyInt ((w : ℚ) * (8 / 100))) 0 44
          titleDraws := []
          expDraws := [] }) ∧
    (backingRect (pyInt ((w : ℚ) * (8 / 100))) 0 44).2.2.2 -
        (backingRect (pyInt ((w : ℚ) * (8 / 100))) 0 44).2.1 = 104 ∧
    (0 : ℚ) < 104 := by
  refine ⟨?_, ?_, by norm_num⟩
  · unfold add_text_to_image add_text_to_imageE
    rw [hopen]
    dsimp only
    rw [show find_font_file env ["Inter-Bold.ttf"] =
        some (projectFontDir env ++ "/" ++ "Inter-Bold.ttf") by
      simp [find_font_file, hb]]
    rw [show find_font_file env ["Inter-Regular.ttf"] =
        some (projectFontDir env ++ "/" ++ "Inter-Regular.ttf") by
      simp [find_font_file, hreg]]
    try dsimp only
    rw [htt, hte]
    try dsimp only
    rw [textwrapWrap_empty _ hwt, textwrapWrap_empty _ hwe]
    try dsimp only
    rw [hsv]
    rfl
  · unfold backingRect overlayPadding
    push_cast
    ring

/-- Closed instance of C10 on okEnv: both strings empty, background
1024 by 1024, rectangle (51, 51, 111, 155) of height 104, success. -/
theorem c10_empty_blocks_rect_witness :
    add_text_to_image okEnv "bg.png" "" "" "out.png" =
      (true, some
        { outputPath := "out.png"
          image := ⟨1024, 1024, "RGB"⟩
          layerSize := (1024, 1024)
          bgRect := backingRect (pyInt ((1024 : ℚ) * (8 / 100))) 0 44
          titleDraws := []
          expDraws := [] }) ∧
    (backingRect (pyInt ((1024 : ℚ) * (8 / 100))) 0 44).2.2.2 -
        (backingRect (pyInt ((1024 : ℚ) * (8 / 100))) 0 44).2.1 = 104 ∧
    (0 : ℚ) < 104 :=
  c10_empty_blocks_rect okEnv "bg.png" "out.png" 1024 1024
    rfl rfl rfl rfl rfl rfl
    (by with_unfolding_all decide) (by with_unfolding_all decide)

end Compositor
